import Mathlib

/-!
Verification of the HTLC (hash-time-locked-contract) bridge contracts of the
fusion-cross-chain-bridge repository.

The repository contains several PyTeal contract variants:
  * `AlgorandHTLCBridge.py`          — full-amount HTLC (create / withdraw / refund),
    legacy argument indexing (handlers read the htlc id from `application_args[0]`,
    the slot occupied by the opcode string matched by the dispatcher);
  * `AlgorandHTLCBridgeFixed.py`     — fixed variant (7/8-argument create, ids in args[1]);
  * `AlgorandHTLCBridge_EthToAlgo.py`— minimal ETH→ALGO leg (create / claim / refund);
  * `AlgorandHTLCBridge_AlgoToEth.py`— minimal ALGO→ETH leg (create / reveal_secret);
  * `FixedAlgorandPartialFillBridge.py` and `AlgorandPartialFillBridge.py`
    — global-state partial-fill engine (create_htlc / partial_fill / withdraw /
    public_claim / deposit); the two files have line-identical handler logic, the
    embedding below covers both.

Each contract is embedded shallowly: TEAL byte strings become `List Nat`,
uint64 values become `Nat`, `App.globalPut` / `App.localPut` become functional
state updates, `Assert` becomes an `if` that aborts the operation, and an inner
payment transaction becomes an element of an emitted transfer list.  An aborted
operation is represented by `OpResult.rejected s ts` where `s` and `ts` are the
state and the transfers accumulated up to the abort point, so "no write before a
failed check" is a provable property rather than a modelling assumption.
`Sha256` is embedded as a complete executable SHA-256 so that hash-dependent
claims can be settled on concrete inputs.
-/

/-- TEAL byte strings are modelled as lists of byte values. -/
abbrev Bytes := List Nat

/-- TEAL `Btoi`: big-endian bytes-to-uint64 decoding (the AVM rejects inputs
longer than 8 bytes; no use in this development exceeds that). -/
def btoi (b : Bytes) : Nat :=
  b.foldl (fun a c => a * 256 + c) 0

/-- TEAL `Itob`: 8-byte big-endian encoding of a uint64. -/
def itob (n : Nat) : Bytes :=
  (List.range 8).map (fun i => n / 256 ^ (7 - i) % 256)

/- ### SHA-256 (the `Sha256` opcode used by every hashlock check) -/

/-- 32-bit modulus used throughout SHA-256. -/
def w32 : Nat := 4294967296

/-- Addition modulo 2^32. -/
def add32 (a b : Nat) : Nat := (a + b) % w32

/-- 32-bit right rotate (the rotation amounts used are all below 32). -/
def rotr32 (x n : Nat) : Nat := ((x >>> n) ||| (x <<< (32 - n))) % w32

/-- Bitwise complement of a 32-bit word. -/
def not32 (x : Nat) : Nat := 4294967295 - x

/-- SHA-256 choice function. -/
def ch32 (x y z : Nat) : Nat := (x &&& y) ^^^ (not32 x &&& z)

/-- SHA-256 majority function. -/
def maj32 (x y z : Nat) : Nat := (x &&& y) ^^^ (x &&& z) ^^^ (y &&& z)

/-- SHA-256 big sigma 0. -/
def bigSigma0 (x : Nat) : Nat := rotr32 x 2 ^^^ rotr32 x 13 ^^^ rotr32 x 22

/-- SHA-256 big sigma 1. -/
def bigSigma1 (x : Nat) : Nat := rotr32 x 6 ^^^ rotr32 x 11 ^^^ rotr32 x 25

/-- SHA-256 small sigma 0. -/
def smallSigma0 (x : Nat) : Nat := rotr32 x 7 ^^^ rotr32 x 18 ^^^ (x >>> 3)

/-- SHA-256 small sigma 1. -/
def smallSigma1 (x : Nat) : Nat := rotr32 x 17 ^^^ rotr32 x 19 ^^^ (x >>> 10)

/-- SHA-256 round constants (FIPS 180-4, in decimal). -/
def sha256K : List Nat :=
  [1116352408, 1899447441, 3049323471, 3921009573, 961987163, 1508970993,
   2453635748, 2870763221, 3624381080, 310598401, 607225278, 1426881987,
   1925078388, 2162078206, 2614888103, 3248222580, 3835390401, 4022224774,
   264347078, 604807628, 770255983, 1249150122, 1555081692, 1996064986,
   2554220882, 2821834349, 2952996808, 3210313671, 3336571891, 3584528711,
   113926993, 338241895, 666307205, 773529912, 1294757372, 1396182291,
   1695183700, 1986661051, 2177026350, 2456956037, 2730485921, 2820302411,
   3259730800, 3345764771, 3516065817, 3600352804, 4094571909, 275423344,
   430227734, 506948616, 659060556, 883997877, 958139571, 1322822218,
   1537002063, 1747873779, 1955562222, 2024104815, 2227730452, 2361852424,
   2428436474, 2756734187, 3204031479, 3329325298]

/-- Working state of the SHA-256 compression function. -/
structure Sha256State where
  a : Nat
  b : Nat
  c : Nat
  d : Nat
  e : Nat
  f : Nat
  g : Nat
  h : Nat
deriving Repr, DecidableEq

/-- SHA-256 initial hash value. -/
def sha256Init : Sha256State :=
  { a := 1779033703, b := 3144134277, c := 1013904242, d := 2773480762,
    e := 1359893119, f := 2600822924, g := 528734635, h := 1541459225 }

/-- One SHA-256 compression round. -/
def sha256Round (s : Sha256State) (k w : Nat) : Sha256State :=
  let t1 := add32 s.h (add32 (bigSigma1 s.e) (add32 (ch32 s.e s.f s.g) (add32 k w)))
  let t2 := add32 (bigSigma0 s.a) (maj32 s.a s.b s.c)
  ⟨add32 t1 t2, s.a, s.b, s.c, add32 s.d t1, s.e, s.f, s.g⟩

/-- Big-endian encoding of `n` into `w` bytes. -/
def natToBytesBE (n w : Nat) : Bytes :=
  (List.range w).map (fun i => n / 256 ^ (w - 1 - i) % 256)

/-- Big-endian word from bytes. -/
def bytesToWordBE (bs : Bytes) : Nat :=
  bs.foldl (fun a c => a * 256 + c) 0

/-- Split a list into chunks of `n` elements (fuel-based structural recursion so
that the kernel can evaluate it). -/
def chunkListAux : Nat → Nat → List α → List (List α)
  | 0, _, _ => []
  | fuel + 1, n, l =>
    if l.length = 0 ∨ n = 0 then [] else
      l.take n :: chunkListAux fuel n (l.drop n)

/-- Split a list into chunks of `n` elements. -/
def chunkList (n : Nat) (l : List α) : List (List α) :=
  chunkListAux (l.length + 1) n l

/-- SHA-256 padding: append 0x80, zero bytes to 56 mod 64, and the 8-byte
big-endian bit length. -/
def sha256Pad (msg : Bytes) : Bytes :=
  let L := msg.length
  let k := (64 + 56 - (L + 1) % 64) % 64
  msg ++ [0x80] ++ List.replicate k 0 ++ natToBytesBE (L * 8) 8

/-- Extend the 16 message-schedule words to 64. -/
def sha256Extend (w : List Nat) : List Nat :=
  (List.range 48).foldl
    (fun acc i =>
      let t := i + 16
      acc ++ [add32 (add32 (smallSigma1 (acc.getD (t - 2) 0)) (acc.getD (t - 7) 0))
                    (add32 (smallSigma0 (acc.getD (t - 15) 0)) (acc.getD (t - 16) 0))])
    w

/-- Process one 64-byte block. -/
def sha256Block (hs : Sha256State) (block : Bytes) : Sha256State :=
  let w := sha256Extend ((chunkList 4 block).map bytesToWordBE)
  let r := (List.range 64).foldl (fun st i => sha256Round st (sha256K.getD i 0) (w.getD i 0)) hs
  ⟨add32 hs.a r.a, add32 hs.b r.b, add32 hs.c r.c, add32 hs.d r.d,
   add32 hs.e r.e, add32 hs.f r.f, add32 hs.g r.g, add32 hs.h r.h⟩

/-- Full SHA-256 digest of a byte string, as 32 bytes (the `Sha256` opcode). -/
def sha256 (msg : Bytes) : Bytes :=
  let hfin := (chunkList 64 (sha256Pad msg)).foldl sha256Block sha256Init
  ((([hfin.a, hfin.b, hfin.c, hfin.d, hfin.e, hfin.f, hfin.g, hfin.h]).map
    (fun x => natToBytesBE x 4)).flatten)

set_option maxRecDepth 10000

/-- Sanity check that the embedded `sha256` is the real SHA-256: digest of the
empty byte string (NIST test vector e3b0c442...). -/
theorem sha256_empty_vector :
    sha256 [] = [0xe3, 0xb0, 0xc4, 0x42, 0x98, 0xfc, 0x1c, 0x14, 0x9a, 0xfb, 0xf4, 0xc8,
                 0x99, 0x6f, 0xb9, 0x24, 0x27, 0xae, 0x41, 0xe4, 0x64, 0x9b, 0x93, 0x4c,
                 0xa4, 0x95, 0x99, 0x1b, 0x78, 0x52, 0xb8, 0x55] := by decide

/-- Sanity check that the embedded `sha256` is the real SHA-256: digest of the
ASCII string "abc" (NIST test vector ba7816bf...). -/
theorem sha256_abc_vector :
    sha256 [97, 98, 99] =
      [0xba, 0x78, 0x16, 0xbf, 0x8f, 0x01, 0xcf, 0xea, 0x41, 0x41, 0x40, 0xde,
       0x5d, 0xae, 0x22, 0x23, 0xb0, 0x03, 0x61, 0xa3, 0x96, 0x17, 0x7a, 0x9c,
       0xb4, 0x10, 0xff, 0x61, 0xf2, 0x00, 0x15, 0xad] := by decide

/-- Hash Commitment Verifier: the check `Sha256(secret) == hashlock` shared by
every claim / partial_fill / public_claim / reveal handler. -/
def verify (secret hashlock : Bytes) : Bool :=
  sha256 secret == hashlock

/-- Destination of an inner payment transaction. -/
inductive Receiver where
  | appAddress
  | acct (a : Bytes)
deriving Repr, DecidableEq

/-- An inner payment transaction issued by a contract operation. -/
structure Transfer where
  receiver : Receiver
  amount : Nat
deriving Repr, DecidableEq

/-- Outcome of one contract operation.  `rejected s ts` records the state and
the transfers accumulated at the moment a check failed (the AVM then discards
them, but carrying them makes "no write happens before a failed check" a
provable statement about the code rather than an assumption). -/
inductive OpResult (σ : Type) where
  | ok (state : σ) (transfers : List Transfer)
  | rejected (state : σ) (transfers : List Transfer)
deriving Repr, DecidableEq

/-- Whether the operation was approved. -/
def OpResult.isOk : OpResult σ → Bool
  | .ok _ _ => true
  | .rejected _ _ => false

/-- Post state of an operation (for a rejected operation, the state at the
abort point). -/
def OpResult.state : OpResult σ → σ
  | .ok s _ => s
  | .rejected s _ => s

/-- Transfers emitted by an operation. -/
def OpResult.outs : OpResult σ → List Transfer
  | .ok _ ts => ts
  | .rejected _ ts => ts

namespace PartialFillBridge

/-!
Embedding of `FixedAlgorandPartialFillBridge.py` (`get_approval_program`); the
handler logic of `AlgorandPartialFillBridge.py` is line-identical (same global
keys, same asserts in the same order, same writes), so this embedding covers
both files.  Global state keys become fields of `GlobalState`.
-/

/-- The contract's global state (keys `total_deposited` … `partial_fills_enabled`). -/
structure GlobalState where
  total_deposited : Nat
  total_filled : Nat
  remaining_amount : Nat
  executed : Nat
  refunded : Nat
  hashlock : Bytes
  timelock : Nat
  recipient : Bytes
  maker : Bytes
  partial_fills_enabled : Nat
deriving Repr, DecidableEq

/-- `handle_creation`: application-creation writes (unwritten byte keys read
back as empty, unwritten uint keys as 0). -/
def handle_creation : GlobalState :=
  { total_deposited := 0, total_filled := 0, remaining_amount := 0,
    executed := 0, refunded := 0, hashlock := [], timelock := 0,
    recipient := [], maker := [], partial_fills_enabled := 0 }

/-- `handle_htlc_creation`: stores args 1–5 (hashlock, timelock, recipient,
maker, partial_fills_enabled) into global state.  No assert is performed and
none of the fill counters or terminal flags is touched. -/
def handle_htlc_creation (s : GlobalState) (hashlock_arg : Bytes) (timelock_arg : Nat)
    (recipient_arg maker_arg : Bytes) (partial_enabled_arg : Nat) : OpResult GlobalState :=
  .ok { s with hashlock := hashlock_arg, timelock := timelock_arg,
               recipient := recipient_arg, maker := maker_arg,
               partial_fills_enabled := partial_enabled_arg } []

/-- `handle_partial_fill`: asserts `executed == 0`, `refunded == 0`,
`hashlock == Sha256(secret)`, `fill_amount > 0`, `fill_amount <= remaining`;
then adds the fill to `total_filled`, subtracts it from `remaining_amount`, and
sets `executed := 1` when the pre-read remaining minus the fill is exactly 0.
No inner transaction is issued. -/
def handle_partial_fill (s : GlobalState) (fill_amount : Nat) (secret : Bytes) :
    OpResult GlobalState :=
  if s.executed = 0 then
    if s.refunded = 0 then
      if s.hashlock = sha256 secret then
        if 0 < fill_amount then
          if fill_amount ≤ s.remaining_amount then
            .ok { s with total_filled := s.total_filled + fill_amount,
                         remaining_amount := s.remaining_amount - fill_amount,
                         executed := if s.remaining_amount - fill_amount = 0 then 1 else s.executed } []
          else .rejected s []
        else .rejected s []
      else .rejected s []
    else .rejected s []
  else .rejected s []

/-- `handle_withdrawal` (maker early exit): asserts `executed == 0`,
`refunded == 0`, `Txn.sender() == maker`; sets `refunded := 1`. -/
def handle_withdrawal (s : GlobalState) (sender : Bytes) : OpResult GlobalState :=
  if s.executed = 0 then
    if s.refunded = 0 then
      if sender = s.maker then
        .ok { s with refunded := 1 } []
      else .rejected s []
    else .rejected s []
  else .rejected s []

/-- `handle_public_claim`: asserts `executed == 0`, `refunded == 0`,
`hashlock == Sha256(secret)`; sets `executed := 1`. -/
def handle_public_claim (s : GlobalState) (secret : Bytes) : OpResult GlobalState :=
  if s.executed = 0 then
    if s.refunded = 0 then
      if s.hashlock = sha256 secret then
        .ok { s with executed := 1 } []
      else .rejected s []
    else .rejected s []
  else .rejected s []

/-- `handle_deposit`: reads the current `total_deposited`, then stores
`total_deposited + amount` into both `total_deposited` and `remaining_amount`.
No assert is performed (in particular no terminal-status check). -/
def handle_deposit (s : GlobalState) (amount : Nat) : OpResult GlobalState :=
  .ok { s with total_deposited := s.total_deposited + amount,
               remaining_amount := s.total_deposited + amount } []

/-- One dispatchable operation of the partial-fill bridge (the `Cond` arms of
the approval program other than application creation). -/
inductive Op where
  | create_htlc (hashlock_arg : Bytes) (timelock_arg : Nat)
      (recipient_arg maker_arg : Bytes) (partial_enabled_arg : Nat)
  | partial_fill (fill_amount : Nat) (secret : Bytes)
  | withdraw (sender : Bytes)
  | public_claim (secret : Bytes)
  | deposit (amount : Nat)
deriving Repr, DecidableEq

/-- Dispatcher: route one operation to its handler. -/
def step (s : GlobalState) : Op → OpResult GlobalState
  | .create_htlc hl tl rcp mk pf => handle_htlc_creation s hl tl rcp mk pf
  | .partial_fill fill sec => handle_partial_fill s fill sec
  | .withdraw sender => handle_withdrawal s sender
  | .public_claim sec => handle_public_claim s sec
  | .deposit amt => handle_deposit s amt

/-- Run a sequence of operations; a rejected transaction leaves the contract
state unchanged (the TEAL transaction aborts). -/
def run (s : GlobalState) (ops : List Op) : GlobalState :=
  ops.foldl (fun t o => (step t o).state) s

/-- Terminal state: `executed = 1` or `refunded = 1`. -/
def isTerminal (s : GlobalState) : Bool :=
  s.executed == 1 || s.refunded == 1

/-- Number of operations in a run that succeed and move the contract from a
non-terminal to a terminal state. -/
def finalizingCount : GlobalState → List Op → Nat
  | _, [] => 0
  | s, o :: rest =>
      let r := step s o
      (if !isTerminal s && r.isOk && isTerminal r.state then 1 else 0) +
        finalizingCount r.state rest

end PartialFillBridge

namespace AlgorandHTLCBridge

/-!
Embedding of `AlgorandHTLCBridge.py` (`htlc_bridge_contract`).  HTLC data is
kept in the calling account's local state; the dispatcher (`Cond`) selects the
handler by comparing `Txn.application_args[0]` against the opcode strings
"create" / "withdraw" / "refund", and the handlers themselves read the htlc id
from `Txn.application_args[0]` as well — faithfully preserved below.
-/

/-- Per-account local state (keys `HtlcId` … `Refunded`).  `htlc_id = none`
models the unset key (which reads back as the uint64 0 that `create_htlc`'s
duplicate check compares against; a set key holds bytes, and comparing bytes
with `Int(0)` rejects the transaction, so the check passes exactly for the
unset key). -/
structure LocalState where
  htlc_id : Option Bytes
  initiator : Bytes
  recipient : Bytes
  amount : Nat
  hashlock : Bytes
  timelock : Nat
  eth_address : Bytes
  withdrawn : Nat
  refunded : Nat
deriving Repr, DecidableEq

/-- Local state of an account that has opted in but created nothing. -/
def initLocal : LocalState :=
  { htlc_id := none, initiator := [], recipient := [], amount := 0, hashlock := [],
    timelock := 0, eth_address := [], withdrawn := 0, refunded := 0 }

/-- Opcode "create" as bytes. -/
def opCreate : Bytes := [99, 114, 101, 97, 116, 101]

/-- Opcode "withdraw" as bytes. -/
def opWithdraw : Bytes := [119, 105, 116, 104, 100, 114, 97, 119]

/-- Opcode "refund" as bytes. -/
def opRefund : Bytes := [114, 101, 102, 117, 110, 100]

/-- `create_htlc`: the relayer-authorization assert `Or(sender == creator, Int(1))`
is a tautology and is omitted; then asserts 7 application arguments, reads
htlc_id → args[0], initiator → args[1], recipient → args[2],
amount → Btoi(args[3]), hashlock → args[4], timelock → Btoi(args[5]),
eth_address → args[6]; asserts the timelock window and `amount > 0` and that no
record exists; stores the record with both flags 0 and escrows `amount` into
the application address. -/
def create_htlc (min_timelock max_timelock now : Nat) (args : List Bytes)
    (s : LocalState) : OpResult LocalState :=
  if args.length = 7 then
    if now + min_timelock ≤ btoi (args.getD 5 []) then
      if btoi (args.getD 5 []) ≤ now + max_timelock then
        if 0 < btoi (args.getD 3 []) then
          if s.htlc_id = none then
            .ok { htlc_id := some (args.getD 0 []), initiator := args.getD 1 [],
                  recipient := args.getD 2 [], amount := btoi (args.getD 3 []),
                  hashlock := args.getD 4 [], timelock := btoi (args.getD 5 []),
                  eth_address := args.getD 6 [], withdrawn := 0, refunded := 0 }
                [⟨.appAddress, btoi (args.getD 3 [])⟩]
          else .rejected s []
        else .rejected s []
      else .rejected s []
    else .rejected s []
  else .rejected s []

/-- `withdraw_htlc`: asserts 2 application arguments, reads htlc_id → args[0]
(the slot the dispatcher matched against "withdraw") and secret → args[1];
asserts the stored id equals args[0], both flags are 0, `now < timelock`, and
`Sha256(secret) == hashlock`; sets `withdrawn := 1` and pays `amount` to the
stored recipient. -/
def withdraw_htlc (now : Nat) (args : List Bytes) (s : LocalState) : OpResult LocalState :=
  if args.length = 2 then
    if s.htlc_id = some (args.getD 0 []) then
      if s.withdrawn = 0 then
        if s.refunded = 0 then
          if now < s.timelock then
            if sha256 (args.getD 1 []) = s.hashlock then
              .ok { s with withdrawn := 1 } [⟨.acct s.recipient, s.amount⟩]
            else .rejected s []
          else .rejected s []
        else .rejected s []
      else .rejected s []
    else .rejected s []
  else .rejected s []

/-- `refund_htlc`: asserts 1 application argument, reads htlc_id → args[0]
(the slot the dispatcher matched against "refund"); asserts the stored id
equals args[0], both flags are 0, and `now >= timelock`; sets `refunded := 1`
and pays `amount` back to the stored initiator. -/
def refund_htlc (now : Nat) (args : List Bytes) (s : LocalState) : OpResult LocalState :=
  if args.length = 1 then
    if s.htlc_id = some (args.getD 0 []) then
      if s.withdrawn = 0 then
        if s.refunded = 0 then
          if s.timelock ≤ now then
            .ok { s with refunded := 1 } [⟨.acct s.initiator, s.amount⟩]
          else .rejected s []
        else .rejected s []
      else .rejected s []
    else .rejected s []
  else .rejected s []

/-- The `Cond` dispatcher for the record-mutating operations ("status" only
reads and "update" touches only global parameters, never a record; an
unmatched first argument rejects). -/
def approval_program (min_timelock max_timelock now : Nat) (args : List Bytes)
    (s : LocalState) : OpResult LocalState :=
  match args with
  | [] => .rejected s []
  | a0 :: _ =>
    if a0 = opCreate then create_htlc min_timelock max_timelock now args s
    else if a0 = opWithdraw then withdraw_htlc now args s
    else if a0 = opRefund then refund_htlc now args s
    else .rejected s []

end AlgorandHTLCBridge

namespace AlgorandHTLCBridgeFixed

/-!
Embedding of `create_htlc` from `AlgorandHTLCBridgeFixed.py` ("FIXED VERSION"):
parameters start at `application_args[1]`, and both 7- and 8-argument calls are
accepted (`eth_address` is empty in the 7-argument form).
-/

/-- Per-account local state, as in the legacy contract. -/
structure LocalState where
  htlc_id : Option Bytes
  initiator : Bytes
  recipient : Bytes
  amount : Nat
  hashlock : Bytes
  timelock : Nat
  eth_address : Bytes
  withdrawn : Nat
  refunded : Nat
deriving Repr, DecidableEq

/-- Local state of an account that has opted in but created nothing. -/
def initLocal : LocalState :=
  { htlc_id := none, initiator := [], recipient := [], amount := 0, hashlock := [],
    timelock := 0, eth_address := [], withdrawn := 0, refunded := 0 }

/-- `create_htlc` (fixed): the tautological relayer check is omitted; the
`If(length == 8, …, Seq(Assert(length == 7), …))` branch reads
htlc_id → args[1], initiator → args[2], recipient → args[3],
amount → Btoi(args[4]), hashlock → args[5], timelock → Btoi(args[6]) in both
arms and eth_address → args[7] only in the 8-argument arm; then asserts the
timelock window, `amount > 0`, and no existing record; stores the record with
both flags 0 and escrows `amount`. -/
def create_htlc (min_timelock max_timelock now : Nat) (args : List Bytes)
    (s : LocalState) : OpResult LocalState :=
  if args.length = 8 ∨ args.length = 7 then
    if now + min_timelock ≤ btoi (args.getD 6 []) then
      if btoi (args.getD 6 []) ≤ now + max_timelock then
        if 0 < btoi (args.getD 4 []) then
          if s.htlc_id = none then
            .ok { htlc_id := some (args.getD 1 []), initiator := args.getD 2 [],
                  recipient := args.getD 3 [], amount := btoi (args.getD 4 []),
                  hashlock := args.getD 5 [], timelock := btoi (args.getD 6 []),
                  eth_address := if args.length = 8 then args.getD 7 [] else [],
                  withdrawn := 0, refunded := 0 }
                [⟨.appAddress, btoi (args.getD 4 [])⟩]
          else .rejected s []
        else .rejected s []
      else .rejected s []
    else .rejected s []
  else .rejected s []

end AlgorandHTLCBridgeFixed

namespace EthToAlgo

/-!
Embedding of `AlgorandHTLCBridge_EthToAlgo.py` (`htlc_eth_to_algo`): the
minimal ETH→ALGO leg with create / claim / refund, parameters starting at
`application_args[1]`.
-/

/-- Per-account local state (keys `HtlcId` … `Refunded`). -/
structure LocalState where
  htlc_id : Option Bytes
  recipient : Bytes
  amount : Nat
  hashlock : Bytes
  timelock : Nat
  withdrawn : Nat
  refunded : Nat
deriving Repr, DecidableEq

/-- Local state of an account that has opted in but created nothing. -/
def initLocal : LocalState :=
  { htlc_id := none, recipient := [], amount := 0, hashlock := [],
    timelock := 0, withdrawn := 0, refunded := 0 }

/-- `create_htlc`: asserts 6 application arguments; reads htlc_id → args[1],
recipient → args[2], amount → Btoi(args[3]), hashlock → args[4],
timelock → Btoi(args[5]); asserts `amount > 0` and no existing record (there is
no timelock-bounds assert in this variant); stores the record with both flags 0
and escrows `amount`. -/
def create_htlc (args : List Bytes) (s : LocalState) : OpResult LocalState :=
  if args.length = 6 then
    if 0 < btoi (args.getD 3 []) then
      if s.htlc_id = none then
        .ok { htlc_id := some (args.getD 1 []), recipient := args.getD 2 [],
              amount := btoi (args.getD 3 []), hashlock := args.getD 4 [],
              timelock := btoi (args.getD 5 []), withdrawn := 0, refunded := 0 }
            [⟨.appAddress, btoi (args.getD 3 [])⟩]
      else .rejected s []
    else .rejected s []
  else .rejected s []

/-- `claim_htlc`: asserts 3 application arguments; reads htlc_id → args[1] and
secret → args[2]; asserts the stored id equals args[1], both flags are 0,
`now < timelock`, and `Sha256(secret) == hashlock`; sets `withdrawn := 1` and
pays the stored `amount` to the stored recipient. -/
def claim_htlc (now : Nat) (args : List Bytes) (s : LocalState) : OpResult LocalState :=
  if args.length = 3 then
    if s.htlc_id = some (args.getD 1 []) then
      if s.withdrawn = 0 then
        if s.refunded = 0 then
          if now < s.timelock then
            if sha256 (args.getD 2 []) = s.hashlock then
              .ok { s with withdrawn := 1 } [⟨.acct s.recipient, s.amount⟩]
            else .rejected s []
          else .rejected s []
        else .rejected s []
      else .rejected s []
    else .rejected s []
  else .rejected s []

/-- `refund_htlc`: asserts 2 application arguments; reads htlc_id → args[1];
asserts the stored id equals args[1], both flags are 0, and `now >= timelock`;
sets `refunded := 1` and pays the stored `amount` to `Txn.sender()`. -/
def refund_htlc (now : Nat) (sender : Bytes) (args : List Bytes)
    (s : LocalState) : OpResult LocalState :=
  if args.length = 2 then
    if s.htlc_id = some (args.getD 1 []) then
      if s.withdrawn = 0 then
        if s.refunded = 0 then
          if s.timelock ≤ now then
            .ok { s with refunded := 1 } [⟨.acct sender, s.amount⟩]
          else .rejected s []
        else .rejected s []
      else .rejected s []
    else .rejected s []
  else .rejected s []

end EthToAlgo

namespace AlgoToEth

/-!
Embedding of `AlgorandHTLCBridge_AlgoToEth.py` (`htlc_algo_to_eth`): the
minimal ALGO→ETH leg with create / reveal_secret only.
-/

/-- Per-account local state (keys `HtlcId` … `Refunded`); `secret` is stored as
the empty byte string until a reveal succeeds. -/
structure LocalState where
  htlc_id : Option Bytes
  eth_recipient : Bytes
  amount : Nat
  hashlock : Bytes
  timelock : Nat
  secret : Bytes
  withdrawn : Nat
  refunded : Nat
deriving Repr, DecidableEq

/-- Local state of an account that has opted in but created nothing. -/
def initLocal : LocalState :=
  { htlc_id := none, eth_recipient := [], amount := 0, hashlock := [],
    timelock := 0, secret := [], withdrawn := 0, refunded := 0 }

/-- `create_htlc`: asserts 6 application arguments; reads htlc_id → args[1],
eth_recipient → args[2], amount → Btoi(args[3]), hashlock → args[4],
timelock → Btoi(args[5]); asserts `amount > 0` and no existing record (no
timelock-bounds assert in this variant); stores the record with both flags 0
and `secret` set to the empty byte string, and escrows `amount`. -/
def create_htlc (args : List Bytes) (s : LocalState) : OpResult LocalState :=
  if args.length = 6 then
    if 0 < btoi (args.getD 3 []) then
      if s.htlc_id = none then
        .ok { htlc_id := some (args.getD 1 []), eth_recipient := args.getD 2 [],
              amount := btoi (args.getD 3 []), hashlock := args.getD 4 [],
              timelock := btoi (args.getD 5 []), secret := [],
              withdrawn := 0, refunded := 0 }
            [⟨.appAddress, btoi (args.getD 3 [])⟩]
      else .rejected s []
    else .rejected s []
  else .rejected s []

/-- `reveal_secret`: asserts 3 application arguments; reads htlc_id → args[1]
and secret → args[2]; asserts the stored id equals args[1], the stored secret
equals the empty byte string, and `Sha256(secret) == hashlock`; stores the
secret.  No flag is changed and no inner transaction is issued. -/
def reveal_secret (args : List Bytes) (s : LocalState) : OpResult LocalState :=
  if args.length = 3 then
    if s.htlc_id = some (args.getD 1 []) then
      if s.secret = [] then
        if sha256 (args.getD 2 []) = s.hashlock then
          .ok { s with secret := args.getD 2 [] } []
        else .rejected s []
      else .rejected s []
    else .rejected s []
  else .rejected s []

end AlgoToEth

set_option maxHeartbeats 1000000

/- ### Helper lemmas: rejection is rollback, success inversions -/

namespace AlgorandHTLCBridge

/-- A rejected `create_htlc` carries the unchanged input state and no transfers. -/
theorem create_htlc_rejected (minT maxT now : Nat) (args : List Bytes) (s s2 : LocalState)
    (ts : List Transfer) (h : create_htlc minT maxT now args s = .rejected s2 ts) :
    s2 = s ∧ ts = [] := by
  unfold create_htlc at h
  split_ifs at h <;> simp_all

/-- A rejected `withdraw_htlc` carries the unchanged input state and no transfers. -/
theorem withdraw_htlc_rejected (now : Nat) (args : List Bytes) (s s2 : LocalState)
    (ts : List Transfer) (h : withdraw_htlc now args s = .rejected s2 ts) :
    s2 = s ∧ ts = [] := by
  unfold withdraw_htlc at h
  split_ifs at h <;> simp_all

/-- A rejected `refund_htlc` carries the unchanged input state and no transfers. -/
theorem refund_htlc_rejected (now : Nat) (args : List Bytes) (s s2 : LocalState)
    (ts : List Transfer) (h : refund_htlc now args s = .rejected s2 ts) :
    s2 = s ∧ ts = [] := by
  unfold refund_htlc at h
  split_ifs at h <;> simp_all

/-- A rejected transaction of the legacy bridge carries the unchanged input
state and no transfers. -/
theorem approval_program_rejected (minT maxT now : Nat) (args : List Bytes)
    (s s2 : LocalState) (ts : List Transfer)
    (h : approval_program minT maxT now args s = .rejected s2 ts) :
    s2 = s ∧ ts = [] := by
  cases args with
  | nil => simp only [approval_program] at h; simp_all
  | cons a rest =>
    simp only [approval_program] at h
    split_ifs at h
    · exact create_htlc_rejected _ _ _ _ _ _ _ h
    · exact withdraw_htlc_rejected _ _ _ _ _ h
    · exact refund_htlc_rejected _ _ _ _ _ h
    · simp_all

/-- Inversion of a successful `create_htlc`: the checks held, the record is the
freshly stored one (in particular the stored id is `args[0]`, the opcode slot),
and exactly the escrow transfer was issued. -/
theorem create_htlc_ok (minT maxT now : Nat) (args : List Bytes) (s s2 : LocalState)
    (ts : List Transfer) (h : create_htlc minT maxT now args s = .ok s2 ts) :
    s2 = { htlc_id := some (args.getD 0 []), initiator := args.getD 1 [],
           recipient := args.getD 2 [], amount := btoi (args.getD 3 []),
           hashlock := args.getD 4 [], timelock := btoi (args.getD 5 []),
           eth_address := args.getD 6 [], withdrawn := 0, refunded := 0 }
    ∧ ts = [⟨.appAddress, btoi (args.getD 3 [])⟩]
    ∧ args.length = 7 ∧ now + minT ≤ btoi (args.getD 5 [])
    ∧ btoi (args.getD 5 []) ≤ now + maxT ∧ 0 < btoi (args.getD 3 [])
    ∧ s.htlc_id = none := by
  unfold create_htlc at h
  split_ifs at h <;> simp_all

/-- Inversion of a successful `withdraw_htlc`: all checks held (in particular
the stored id equals `args[0]`, the opcode slot), the only mutation is
`withdrawn := 1`, and exactly one payout to the stored recipient was issued. -/
theorem withdraw_htlc_ok (now : Nat) (args : List Bytes) (s s2 : LocalState)
    (ts : List Transfer) (h : withdraw_htlc now args s = .ok s2 ts) :
    s2 = { s with withdrawn := 1 }
    ∧ ts = [⟨.acct s.recipient, s.amount⟩]
    ∧ args.length = 2 ∧ s.htlc_id = some (args.getD 0 [])
    ∧ s.withdrawn = 0 ∧ s.refunded = 0 ∧ now < s.timelock
    ∧ sha256 (args.getD 1 []) = s.hashlock := by
  unfold withdraw_htlc at h
  split_ifs at h <;> simp_all

/-- Inversion of a successful `refund_htlc`: all checks held, the only mutation
is `refunded := 1`, and exactly one repayment to the stored initiator was
issued. -/
theorem refund_htlc_ok (now : Nat) (args : List Bytes) (s s2 : LocalState)
    (ts : List Transfer) (h : refund_htlc now args s = .ok s2 ts) :
    s2 = { s with refunded := 1 }
    ∧ ts = [⟨.acct s.initiator, s.amount⟩]
    ∧ args.length = 1 ∧ s.htlc_id = some (args.getD 0 [])
    ∧ s.withdrawn = 0 ∧ s.refunded = 0 ∧ s.timelock ≤ now := by
  unfold refund_htlc at h
  split_ifs at h <;> simp_all

end AlgorandHTLCBridge

namespace AlgorandHTLCBridgeFixed

/-- A rejected fixed-variant `create_htlc` carries the unchanged input state
and no transfers. -/
theorem create_htlc_fixed_rejected (minT maxT now : Nat) (args : List Bytes) (s s2 : LocalState)
    (ts : List Transfer) (h : create_htlc minT maxT now args s = .rejected s2 ts) :
    s2 = s ∧ ts = [] := by
  unfold create_htlc at h
  split_ifs at h <;> simp_all

/-- Inversion of a successful fixed-variant `create_htlc`: the checks held
(including the timelock window) and the stored record was freshly written. -/
theorem create_htlc_fixed_ok (minT maxT now : Nat) (args : List Bytes) (s s2 : LocalState)
    (ts : List Transfer) (h : create_htlc minT maxT now args s = .ok s2 ts) :
    s2.withdrawn = 0 ∧ s2.refunded = 0 ∧ s2.amount = btoi (args.getD 4 [])
    ∧ s2.timelock = btoi (args.getD 6 [])
    ∧ ts = [⟨.appAddress, btoi (args.getD 4 [])⟩]
    ∧ (args.length = 8 ∨ args.length = 7)
    ∧ now + minT ≤ btoi (args.getD 6 []) ∧ btoi (args.getD 6 []) ≤ now + maxT
    ∧ 0 < btoi (args.getD 4 []) ∧ s.htlc_id = none := by
  unfold create_htlc at h
  split_ifs at h <;> simp_all
  all_goals obtain ⟨hA, hB⟩ := h
  all_goals subst hA
  all_goals simp

end AlgorandHTLCBridgeFixed

namespace EthToAlgo

/-- A rejected ETH→ALGO `create_htlc` carries the unchanged input state and no
transfers. -/
theorem eth_to_algo_create_rejected (args : List Bytes) (s s2 : LocalState)
    (ts : List Transfer) (h : create_htlc args s = .rejected s2 ts) :
    s2 = s ∧ ts = [] := by
  unfold create_htlc at h
  split_ifs at h <;> simp_all

/-- A rejected ETH→ALGO `claim_htlc` carries the unchanged input state and no
transfers. -/
theorem claim_htlc_rejected (now : Nat) (args : List Bytes) (s s2 : LocalState)
    (ts : List Transfer) (h : claim_htlc now args s = .rejected s2 ts) :
    s2 = s ∧ ts = [] := by
  unfold claim_htlc at h
  split_ifs at h <;> simp_all

/-- A rejected ETH→ALGO `refund_htlc` carries the unchanged input state and no
transfers. -/
theorem eth_to_algo_refund_rejected (now : Nat) (sender : Bytes) (args : List Bytes)
    (s s2 : LocalState) (ts : List Transfer)
    (h : refund_htlc now sender args s = .rejected s2 ts) :
    s2 = s ∧ ts = [] := by
  unfold refund_htlc at h
  split_ifs at h <;> simp_all

/-- A successful ETH→ALGO `claim_htlc` holds exactly when all its checks hold;
it sets `withdrawn := 1` and pays the stored amount to the stored recipient. -/
theorem claim_htlc_success (now : Nat) (x0 id sec : Bytes) (s : LocalState)
    (h1 : s.htlc_id = some id) (h2 : s.withdrawn = 0) (h3 : s.refunded = 0)
    (h4 : now < s.timelock) (h5 : sha256 sec = s.hashlock) :
    claim_htlc now [x0, id, sec] s =
      .ok { s with withdrawn := 1 } [⟨.acct s.recipient, s.amount⟩] := by
  simp [claim_htlc, h1, h2, h3, h4, h5]

end EthToAlgo

namespace AlgoToEth

/-- A rejected ALGO→ETH `create_htlc` carries the unchanged input state and no
transfers. -/
theorem algo_to_eth_create_rejected (args : List Bytes) (s s2 : LocalState)
    (ts : List Transfer) (h : create_htlc args s = .rejected s2 ts) :
    s2 = s ∧ ts = [] := by
  unfold create_htlc at h
  split_ifs at h <;> simp_all

/-- A rejected `reveal_secret` carries the unchanged input state and no
transfers. -/
theorem reveal_secret_rejected (args : List Bytes) (s s2 : LocalState)
    (ts : List Transfer) (h : reveal_secret args s = .rejected s2 ts) :
    s2 = s ∧ ts = [] := by
  unfold reveal_secret at h
  split_ifs at h <;> simp_all

/-- Inversion of a successful `reveal_secret`: the id matched, the stored
secret was the empty sentinel, the revealed secret hashes to the hashlock, the
only mutation is storing the secret, and no transfer is issued. -/
theorem reveal_secret_ok (args : List Bytes) (s s2 : LocalState)
    (ts : List Transfer) (h : reveal_secret args s = .ok s2 ts) :
    s2 = { s with secret := args.getD 2 [] } ∧ ts = []
    ∧ args.length = 3 ∧ s.htlc_id = some (args.getD 1 []) ∧ s.secret = []
    ∧ sha256 (args.getD 2 []) = s.hashlock := by
  unfold reveal_secret at h
  split_ifs at h <;> simp_all

/-- Inversion of a successful ALGO→ETH `create_htlc`. -/
theorem algo_to_eth_create_ok (args : List Bytes) (s s2 : LocalState)
    (ts : List Transfer) (h : create_htlc args s = .ok s2 ts) :
    s2 = { htlc_id := some (args.getD 1 []), eth_recipient := args.getD 2 [],
           amount := btoi (args.getD 3 []), hashlock := args.getD 4 [],
           timelock := btoi (args.getD 5 []), secret := [],
           withdrawn := 0, refunded := 0 }
    ∧ ts = [⟨.appAddress, btoi (args.getD 3 [])⟩]
    ∧ args.length = 6 ∧ 0 < btoi (args.getD 3 []) ∧ s.htlc_id = none := by
  unfold create_htlc at h
  split_ifs at h <;> simp_all

end AlgoToEth

namespace PartialFillBridge

/-- A rejected operation of the partial-fill bridge carries the unchanged input
state and no transfers. -/
theorem step_rejected (s : GlobalState) (o : Op) (s2 : GlobalState)
    (ts : List Transfer) (h : step s o = .rejected s2 ts) :
    s2 = s ∧ ts = [] := by
  cases o <;>
    simp only [step, handle_htlc_creation, handle_partial_fill,
      handle_withdrawal, handle_public_claim, handle_deposit] at h <;>
    first
      | (split_ifs at h <;> simp_all)
      | simp_all

/-- Inversion of a successful `handle_partial_fill`: the checks held and the
state update is the fill accumulation with same-call finalization. -/
theorem handle_partial_fill_ok (s : GlobalState) (fill : Nat) (sec : Bytes)
    (s2 : GlobalState) (ts : List Transfer)
    (h : handle_partial_fill s fill sec = .ok s2 ts) :
    s2 = { s with total_filled := s.total_filled + fill,
                  remaining_amount := s.remaining_amount - fill,
                  executed := if s.remaining_amount - fill = 0 then 1 else s.executed }
    ∧ ts = [] ∧ s.executed = 0 ∧ s.refunded = 0 ∧ s.hashlock = sha256 sec
    ∧ 0 < fill ∧ fill ≤ s.remaining_amount := by
  unfold handle_partial_fill at h
  split_ifs at h <;> simp_all

/-- Forward form: when all five checks hold, `handle_partial_fill` succeeds
with the fill accumulated and same-call finalization. -/
theorem handle_partial_fill_success (s : GlobalState) (fill : Nat) (sec : Bytes)
    (h1 : s.executed = 0) (h2 : s.refunded = 0) (h3 : s.hashlock = sha256 sec)
    (h4 : 0 < fill) (h5 : fill ≤ s.remaining_amount) :
    handle_partial_fill s fill sec =
      .ok { s with total_filled := s.total_filled + fill,
                   remaining_amount := s.remaining_amount - fill,
                   executed := if s.remaining_amount - fill = 0 then 1 else s.executed } [] := by
  simp [handle_partial_fill, h1, h2, h3, h4, h5]

end PartialFillBridge

namespace PartialFillBridge

/-- Once `executed = 1` or `refunded = 1`, `handle_partial_fill` is rejected
with the state unchanged. -/
theorem handle_partial_fill_terminal (s : GlobalState) (fill : Nat) (sec : Bytes)
    (ht : isTerminal s = true) :
    handle_partial_fill s fill sec = .rejected s [] := by
  simp only [isTerminal, Bool.or_eq_true, beq_iff_eq] at ht
  unfold handle_partial_fill
  split_ifs <;> first | rfl | omega

/-- Once terminal, the maker `handle_withdrawal` is rejected with the state
unchanged. -/
theorem handle_withdrawal_terminal (s : GlobalState) (sender : Bytes)
    (ht : isTerminal s = true) :
    handle_withdrawal s sender = .rejected s [] := by
  simp only [isTerminal, Bool.or_eq_true, beq_iff_eq] at ht
  unfold handle_withdrawal
  split_ifs <;> first | rfl | omega

/-- Once terminal, `handle_public_claim` is rejected with the state unchanged. -/
theorem handle_public_claim_terminal (s : GlobalState) (sec : Bytes)
    (ht : isTerminal s = true) :
    handle_public_claim s sec = .rejected s [] := by
  simp only [isTerminal, Bool.or_eq_true, beq_iff_eq] at ht
  unfold handle_public_claim
  split_ifs <;> first | rfl | omega

/-- Terminality is absorbing: no operation clears a terminal flag. -/
theorem step_preserves_terminal (s : GlobalState) (o : Op)
    (ht : isTerminal s = true) : isTerminal (step s o).state = true := by
  cases o with
  | create_htlc hl tl rcp mk pf =>
    simp only [step, handle_htlc_creation, OpResult.state]
    simpa [isTerminal] using ht
  | partial_fill fill sec =>
    simp [step, handle_partial_fill_terminal s fill sec ht, OpResult.state, ht]
  | withdraw sender =>
    simp [step, handle_withdrawal_terminal s sender ht, OpResult.state, ht]
  | public_claim sec =>
    simp [step, handle_public_claim_terminal s sec ht, OpResult.state, ht]
  | deposit amt =>
    simp only [step, handle_deposit, OpResult.state]
    simpa [isTerminal] using ht

/-- From a terminal state no operation counts as finalizing. -/
theorem finalizingCount_terminal (ops : List Op) :
    ∀ (s : GlobalState), isTerminal s = true → finalizingCount s ops = 0 := by
  induction ops with
  | nil => intro s _; rfl
  | cons o rest ih =>
    intro s ht
    simp [finalizingCount, ht, ih _ (step_preserves_terminal s o ht)]

/-- At most one operation of any run finalizes the record. -/
theorem finalizingCount_le_one (ops : List Op) :
    ∀ (s : GlobalState), finalizingCount s ops ≤ 1 := by
  induction ops with
  | nil => intro s; simp [finalizingCount]
  | cons o rest ih =>
    intro s
    simp only [finalizingCount]
    by_cases hb : (!isTerminal s && (step s o).isOk && isTerminal (step s o).state) = true
    · have h2 : isTerminal (step s o).state = true := by
        simp only [Bool.and_eq_true] at hb
        exact hb.2
      simp [hb, finalizingCount_terminal rest _ h2]
    · simp only [Bool.not_eq_true] at hb
      simp only [hb, Bool.false_eq_true, if_false, Nat.zero_add]
      exact ih _

/-- Exclusivity of the two terminal flags. -/
def flagsExclusive (s : GlobalState) : Bool :=
  !(s.executed == 1 && s.refunded == 1)

/-- No single operation can set both terminal flags. -/
theorem step_preserves_flagsExclusive (s : GlobalState) (o : Op)
    (hx : flagsExclusive s = true) : flagsExclusive (step s o).state = true := by
  cases o <;>
    simp only [step, handle_htlc_creation, handle_partial_fill,
      handle_withdrawal, handle_public_claim, handle_deposit] <;>
    first
      | (split_ifs <;> simp_all [flagsExclusive, OpResult.state])
      | simp_all [flagsExclusive, OpResult.state]

/-- Along any run, the two terminal flags are never both set. -/
theorem run_preserves_flagsExclusive (ops : List Op) :
    ∀ (s : GlobalState), flagsExclusive s = true → flagsExclusive (run s ops) = true := by
  induction ops with
  | nil => intro s hx; simpa [run] using hx
  | cons o rest ih =>
    intro s hx
    simpa [run] using ih _ (step_preserves_flagsExclusive s o hx)

end PartialFillBridge

namespace AlgorandHTLCBridge

/-- Terminal record: `Withdrawn = 1` or `Refunded = 1`. -/
def isTerminal (l : LocalState) : Bool :=
  l.withdrawn == 1 || l.refunded == 1

/-- Records reachable by this contract: a terminal flag can only be set on an
account whose `HtlcId` key has been written (holds for the opted-in initial
state and is preserved by every transaction). -/
def wellFormed (l : LocalState) : Bool :=
  l.htlc_id.isSome || (l.withdrawn == 0 && l.refunded == 0)

/-- One submitted transaction: a clock reading paired with application args. -/
def runTx (minT maxT : Nat) (l : LocalState) (c : Nat × List Bytes) : OpResult LocalState :=
  approval_program minT maxT c.1 c.2 l

/-- Run a sequence of transactions (a rejected transaction changes nothing). -/
def run (minT maxT : Nat) (l : LocalState) (cs : List (Nat × List Bytes)) : LocalState :=
  cs.foldl (fun t c => (runTx minT maxT t c).state) l

/-- Number of transactions in a run that succeed and move the record from a
non-terminal to a terminal state. -/
def finalizingCount (minT maxT : Nat) : LocalState → List (Nat × List Bytes) → Nat
  | _, [] => 0
  | l, c :: rest =>
      let r := runTx minT maxT l c
      (if !isTerminal l && r.isOk && isTerminal r.state then 1 else 0) +
        finalizingCount minT maxT r.state rest

/-- Once terminal, `withdraw_htlc` is rejected with the state unchanged. -/
theorem withdraw_htlc_terminal (now : Nat) (args : List Bytes) (l : LocalState)
    (ht : isTerminal l = true) : withdraw_htlc now args l = .rejected l [] := by
  simp only [isTerminal, Bool.or_eq_true, beq_iff_eq] at ht
  unfold withdraw_htlc
  split_ifs <;> first | rfl | omega

/-- Once terminal, `refund_htlc` is rejected with the state unchanged. -/
theorem refund_htlc_terminal (now : Nat) (args : List Bytes) (l : LocalState)
    (ht : isTerminal l = true) : refund_htlc now args l = .rejected l [] := by
  simp only [isTerminal, Bool.or_eq_true, beq_iff_eq] at ht
  unfold refund_htlc
  split_ifs <;> first | rfl | omega

/-- On a well-formed terminal record `create_htlc` is rejected (the duplicate
check sees the written `HtlcId`), so the flags cannot be reset. -/
theorem create_htlc_terminal_wf (minT maxT now : Nat) (args : List Bytes) (l : LocalState)
    (hw : wellFormed l = true) (ht : isTerminal l = true) :
    create_htlc minT maxT now args l = .rejected l [] := by
  simp only [isTerminal, Bool.or_eq_true, beq_iff_eq] at ht
  simp only [wellFormed, Bool.or_eq_true, Bool.and_eq_true, beq_iff_eq] at hw
  unfold create_htlc
  split_ifs with h1 h2 h3 h4 h5 <;> first
    | rfl
    | (exfalso
       rcases hw with hs | ⟨hw1, hw2⟩
       · rw [h5] at hs; simp at hs
       · omega)

/-- A successful transaction of the legacy bridge is a successful create,
withdraw, or refund. -/
theorem approval_program_ok_cases (minT maxT now : Nat) (args : List Bytes)
    (l s2 : LocalState) (ts : List Transfer)
    (h : approval_program minT maxT now args l = .ok s2 ts) :
    create_htlc minT maxT now args l = .ok s2 ts
    ∨ withdraw_htlc now args l = .ok s2 ts
    ∨ refund_htlc now args l = .ok s2 ts := by
  cases args with
  | nil => simp only [approval_program] at h; simp_all
  | cons a rest =>
    simp only [approval_program] at h
    split_ifs at h <;> simp_all

/-- On a well-formed terminal record every transaction is rejected with the
state unchanged. -/
theorem runTx_terminal (minT maxT : Nat) (c : Nat × List Bytes) (l : LocalState)
    (hw : wellFormed l = true) (ht : isTerminal l = true) :
    runTx minT maxT l c = .rejected l [] := by
  unfold runTx
  cases hargs : c.2 with
  | nil => simp [approval_program]
  | cons a rest =>
    simp only [approval_program]
    split_ifs
    · exact create_htlc_terminal_wf _ _ _ _ _ hw ht
    · exact withdraw_htlc_terminal _ _ _ ht
    · exact refund_htlc_terminal _ _ _ ht
    · rfl

/-- Well-formedness is preserved by every transaction. -/
theorem runTx_wellFormed (minT maxT : Nat) (c : Nat × List Bytes) (l : LocalState)
    (hw : wellFormed l = true) : wellFormed (runTx minT maxT l c).state = true := by
  rcases hr : runTx minT maxT l c with ⟨s2, ts⟩ | ⟨s2, ts⟩
  · unfold runTx at hr
    rcases approval_program_ok_cases _ _ _ _ _ _ _ hr with hc | hc | hc
    · obtain ⟨h1, _⟩ := create_htlc_ok _ _ _ _ _ _ _ hc
      subst h1; simp [wellFormed, OpResult.state]
    · obtain ⟨h1, _, _, h4, _⟩ := withdraw_htlc_ok _ _ _ _ _ hc
      subst h1; simp [wellFormed, OpResult.state, h4]
    · obtain ⟨h1, _, _, h4, _⟩ := refund_htlc_ok _ _ _ _ _ hc
      subst h1; simp [wellFormed, OpResult.state, h4]
  · unfold runTx at hr
    obtain ⟨h1, _⟩ := approval_program_rejected _ _ _ _ _ _ _ hr
    subst h1; simpa [OpResult.state] using hw

/-- From a well-formed terminal record no transaction counts as finalizing. -/
theorem legacy_finalizingCount_terminal (minT maxT : Nat) (cs : List (Nat × List Bytes)) :
    ∀ (l : LocalState), wellFormed l = true → isTerminal l = true →
      finalizingCount minT maxT l cs = 0 := by
  induction cs with
  | nil => intro l _ _; rfl
  | cons c rest ih =>
    intro l hw ht
    have hstep := runTx_terminal minT maxT c l hw ht
    simp [finalizingCount, ht, hstep, OpResult.state, ih l hw ht]

/-- At most one transaction of any run from a well-formed record finalizes it. -/
theorem legacy_finalizingCount_le_one (minT maxT : Nat) (cs : List (Nat × List Bytes)) :
    ∀ (l : LocalState), wellFormed l = true →
      finalizingCount minT maxT l cs ≤ 1 := by
  induction cs with
  | nil => intro l _; simp [finalizingCount]
  | cons c rest ih =>
    intro l hw
    have hw2 := runTx_wellFormed minT maxT c l hw
    simp only [finalizingCount]
    by_cases hb : (!isTerminal l && (runTx minT maxT l c).isOk
        && isTerminal (runTx minT maxT l c).state) = true
    · have h2 : isTerminal (runTx minT maxT l c).state = true := by
        simp only [Bool.and_eq_true] at hb
        exact hb.2
      simp [hb, legacy_finalizingCount_terminal minT maxT rest _ hw2 h2]
    · simp only [Bool.not_eq_true] at hb
      simp only [hb, Bool.false_eq_true, if_false, Nat.zero_add]
      exact ih _ hw2

/-- Exclusivity of the two terminal flags of a legacy record. -/
def flagsExclusive (l : LocalState) : Bool :=
  !(l.withdrawn == 1 && l.refunded == 1)

/-- No transaction can set both terminal flags of a legacy record. -/
theorem runTx_flagsExclusive (minT maxT : Nat) (c : Nat × List Bytes) (l : LocalState)
    (hx : flagsExclusive l = true) : flagsExclusive (runTx minT maxT l c).state = true := by
  rcases hr : runTx minT maxT l c with ⟨s2, ts⟩ | ⟨s2, ts⟩
  · unfold runTx at hr
    rcases approval_program_ok_cases _ _ _ _ _ _ _ hr with hc | hc | hc
    · obtain ⟨h1, _⟩ := create_htlc_ok _ _ _ _ _ _ _ hc
      subst h1; simp [flagsExclusive, OpResult.state]
    · obtain ⟨h1, _, _, _, _, h6, _⟩ := withdraw_htlc_ok _ _ _ _ _ hc
      subst h1; simp [flagsExclusive, OpResult.state, h6]
    · obtain ⟨h1, _, _, _, h5, _⟩ := refund_htlc_ok _ _ _ _ _ hc
      subst h1; simp [flagsExclusive, OpResult.state, h5]
  · unfold runTx at hr
    obtain ⟨h1, _⟩ := approval_program_rejected _ _ _ _ _ _ _ hr
    subst h1; simpa [OpResult.state] using hx

/-- Along any run, the two terminal flags of a legacy record are never both
set. -/
theorem run_flagsExclusive (minT maxT : Nat) (cs : List (Nat × List Bytes)) :
    ∀ (l : LocalState), flagsExclusive l = true →
      flagsExclusive (run minT maxT l cs) = true := by
  induction cs with
  | nil => intro l hx; simpa [run] using hx
  | cons c rest ih =>
    intro l hx
    simpa [run] using ih _ (runTx_flagsExclusive minT maxT c l hx)

end AlgorandHTLCBridge

namespace PartialFillBridge

def admissible : Nat → List Nat → Bool
  | _, [] => true
  | rem, f :: rest => decide (0 < f) && decide (f ≤ rem) && admissible (rem - f) rest

def fillsOps (sec : Bytes) (fs : List Nat) : List Op :=
  fs.map (fun f => Op.partial_fill f sec)

def allOk : GlobalState → List Op → Bool
  | _, [] => true
  | s, o :: rest => (step s o).isOk && allOk (step s o).state rest

theorem run_cons (s : GlobalState) (o : Op) (ops : List Op) :
    run s (o :: ops) = run (step s o).state ops := rfl

theorem allOk_cons (s : GlobalState) (o : Op) (ops : List Op) :
    allOk s (o :: ops) = ((step s o).isOk && allOk (step s o).state ops) := rfl

theorem fillsOps_cons (sec : Bytes) (f : Nat) (fs : List Nat) :
    fillsOps sec (f :: fs) = Op.partial_fill f sec :: fillsOps sec fs := rfl

theorem fills_accumulate (sec : Bytes) (fs : List Nat) :
    ∀ (s : GlobalState), s.executed = 0 → s.refunded = 0 → s.hashlock = sha256 sec →
      admissible s.remaining_amount fs = true →
      allOk s (fillsOps sec fs) = true
      ∧ (run s (fillsOps sec fs)).total_filled = s.total_filled + fs.sum
      ∧ (run s (fillsOps sec fs)).remaining_amount = s.remaining_amount - fs.sum := by
  induction fs with
  | nil => intro s h1 h2 h3 _; simp [fillsOps, allOk, run]
  | cons f rest ih =>
    intro s h1 h2 h3 hadm
    simp only [admissible, Bool.and_eq_true, decide_eq_true_eq] at hadm
    obtain ⟨⟨hf0, hfle⟩, hrest⟩ := hadm
    have hstep := handle_partial_fill_success s f sec h1 h2 h3 hf0 hfle
    have hstepeq : step s (Op.partial_fill f sec) = handle_partial_fill s f sec := rfl
    cases rest with
    | nil =>
      refine ⟨?_, ?_, ?_⟩ <;>
        simp [fillsOps, allOk, run, hstepeq, hstep, OpResult.state, OpResult.isOk]
    | cons g more =>
      have hg : 0 < g ∧ g ≤ s.remaining_amount - f := by
        simp only [admissible, Bool.and_eq_true, decide_eq_true_eq] at hrest
        exact ⟨hrest.1.1, hrest.1.2⟩
      have hrem : ¬ (s.remaining_amount - f = 0) := by omega
      have hih := ih
        ({ s with
             total_filled := s.total_filled + f,
             remaining_amount := s.remaining_amount - f,
             executed := if s.remaining_amount - f = 0 then 1 else s.executed })
        (by simp [hrem, h1]) (by simp [h2]) (by simp [h3])
        (by simpa using hrest)
      obtain ⟨ha, hb, hc⟩ := hih
      refine ⟨?_, ?_, ?_⟩
      · rw [fillsOps_cons, allOk_cons, hstepeq, hstep]
        simpa [OpResult.isOk, OpResult.state] using ha
      · rw [fillsOps_cons, run_cons, hstepeq, hstep]
        simp only [OpResult.state]
        rw [hb]
        simp [List.sum_cons]
        omega
      · rw [fillsOps_cons, run_cons, hstepeq, hstep]
        simp only [OpResult.state]
        rw [hc]
        simp [List.sum_cons]
        omega

end PartialFillBridge

namespace PartialFillBridge

/-- An invalid fill amount (zero, or exceeding the current remaining amount)
is rejected with the state unchanged — no clamping. -/
theorem handle_partial_fill_invalid (s : GlobalState) (fill : Nat) (sec : Bytes)
    (hbad : fill = 0 ∨ s.remaining_amount < fill) :
    handle_partial_fill s fill sec = .rejected s [] := by
  rcases hbad with h | h <;>
    (unfold handle_partial_fill
     split_ifs <;> first | rfl | (exfalso; omega))

end PartialFillBridge

/- ### Claim theorems -/

/-- C1: at most one of claim/withdraw, refund, the final partial_fill and
public_claim finalizes a record; once a terminal flag is set every later
claim/withdraw, refund, partial_fill, public_claim and maker withdraw is
rejected with the flags (indeed the whole state) unchanged; and the two
terminal flags are never both set.  Stated for the partial-fill engine
(finalizing count, flag exclusivity along runs, post-terminal rejection of
partial_fill / maker withdrawal / public_claim) and for the legacy bridge
(post-terminal rejection of withdraw / refund, finalizing count along runs
from well-formed records, flag exclusivity along runs). -/
theorem C1_exactly_once_finalization :
    (∀ (s : PartialFillBridge.GlobalState) (ops : List PartialFillBridge.Op),
        PartialFillBridge.finalizingCount s ops ≤ 1)
    ∧ (∀ (s : PartialFillBridge.GlobalState) (ops : List PartialFillBridge.Op),
        PartialFillBridge.flagsExclusive s = true →
        PartialFillBridge.flagsExclusive (PartialFillBridge.run s ops) = true)
    ∧ (∀ (s : PartialFillBridge.GlobalState) (fill : Nat) (sec sender : Bytes),
        PartialFillBridge.isTerminal s = true →
        PartialFillBridge.handle_partial_fill s fill sec = .rejected s []
        ∧ PartialFillBridge.handle_withdrawal s sender = .rejected s []
        ∧ PartialFillBridge.handle_public_claim s sec = .rejected s [])
    ∧ (∀ (now : Nat) (args : List Bytes) (l : AlgorandHTLCBridge.LocalState),
        AlgorandHTLCBridge.isTerminal l = true →
        AlgorandHTLCBridge.withdraw_htlc now args l = .rejected l []
        ∧ AlgorandHTLCBridge.refund_htlc now args l = .rejected l [])
    ∧ (∀ (minT maxT : Nat) (l : AlgorandHTLCBridge.LocalState)
          (cs : List (Nat × List Bytes)),
        AlgorandHTLCBridge.wellFormed l = true →
        AlgorandHTLCBridge.finalizingCount minT maxT l cs ≤ 1)
    ∧ (∀ (minT maxT : Nat) (l : AlgorandHTLCBridge.LocalState)
          (cs : List (Nat × List Bytes)),
        AlgorandHTLCBridge.flagsExclusive l = true →
        AlgorandHTLCBridge.flagsExclusive (AlgorandHTLCBridge.run minT maxT l cs) = true) := by
  refine ⟨?_, ?_, ?_, ?_, ?_, ?_⟩
  · exact fun s ops => PartialFillBridge.finalizingCount_le_one ops s
  · exact fun s ops hx => PartialFillBridge.run_preserves_flagsExclusive ops s hx
  · exact fun s fill sec sender ht =>
      ⟨PartialFillBridge.handle_partial_fill_terminal s fill sec ht,
       PartialFillBridge.handle_withdrawal_terminal s sender ht,
       PartialFillBridge.handle_public_claim_terminal s sec ht⟩
  · exact fun now args l ht =>
      ⟨AlgorandHTLCBridge.withdraw_htlc_terminal now args l ht,
       AlgorandHTLCBridge.refund_htlc_terminal now args l ht⟩
  · exact fun minT maxT l cs hw => AlgorandHTLCBridge.legacy_finalizingCount_le_one minT maxT cs l hw
  · exact fun minT maxT l cs hx => AlgorandHTLCBridge.run_flagsExclusive minT maxT cs l hx

/-- Witness for C1 at concrete inputs: a partial fill on an already-executed
record is rejected unchanged, and a fresh legacy record admits at most one
finalizing transaction over a concrete run. -/
theorem C1_exactly_once_finalization_witness :
    PartialFillBridge.handle_partial_fill
        ⟨0, 0, 5, 1, 0, [], 0, [], [], 0⟩ 3 [] =
      .rejected ⟨0, 0, 5, 1, 0, [], 0, [], [], 0⟩ []
    ∧ AlgorandHTLCBridge.finalizingCount 3600 86400 AlgorandHTLCBridge.initLocal
        [(0, [AlgorandHTLCBridge.opRefund])] ≤ 1 :=
  ⟨(C1_exactly_once_finalization.2.2.1 ⟨0, 0, 5, 1, 0, [], 0, [], [], 0⟩ 3 [] []
      (by decide)).1,
   C1_exactly_once_finalization.2.2.2.2.1 3600 86400 AlgorandHTLCBridge.initLocal
      [(0, [AlgorandHTLCBridge.opRefund])] (by decide)⟩

/-- C2: whenever any operation of any embedded variant fails one of its checks,
the state carried at the abort point is exactly the input state and no transfer
was issued — every check is evaluated before any write, and a failed operation
mutates nothing. -/
theorem C2_failed_operation_mutates_nothing :
    (∀ (minT maxT now : Nat) (args : List Bytes) (s s2 : AlgorandHTLCBridge.LocalState)
        (ts : List Transfer),
        AlgorandHTLCBridge.approval_program minT maxT now args s = .rejected s2 ts →
        s2 = s ∧ ts = [])
    ∧ (∀ (minT maxT now : Nat) (args : List Bytes)
          (s s2 : AlgorandHTLCBridgeFixed.LocalState) (ts : List Transfer),
        AlgorandHTLCBridgeFixed.create_htlc minT maxT now args s = .rejected s2 ts →
        s2 = s ∧ ts = [])
    ∧ (∀ (s : PartialFillBridge.GlobalState) (o : PartialFillBridge.Op)
          (s2 : PartialFillBridge.GlobalState) (ts : List Transfer),
        PartialFillBridge.step s o = .rejected s2 ts → s2 = s ∧ ts = [])
    ∧ (∀ (args : List Bytes) (s s2 : EthToAlgo.LocalState) (ts : List Transfer),
        EthToAlgo.create_htlc args s = .rejected s2 ts → s2 = s ∧ ts = [])
    ∧ (∀ (now : Nat) (args : List Bytes) (s s2 : EthToAlgo.LocalState) (ts : List Transfer),
        EthToAlgo.claim_htlc now args s = .rejected s2 ts → s2 = s ∧ ts = [])
    ∧ (∀ (now : Nat) (sender : Bytes) (args : List Bytes) (s s2 : EthToAlgo.LocalState)
          (ts : List Transfer),
        EthToAlgo.refund_htlc now sender args s = .rejected s2 ts → s2 = s ∧ ts = [])
    ∧ (∀ (args : List Bytes) (s s2 : AlgoToEth.LocalState) (ts : List Transfer),
        AlgoToEth.create_htlc args s = .rejected s2 ts → s2 = s ∧ ts = [])
    ∧ (∀ (args : List Bytes) (s s2 : AlgoToEth.LocalState) (ts : List Transfer),
        AlgoToEth.reveal_secret args s = .rejected s2 ts → s2 = s ∧ ts = []) :=
  ⟨fun _ _ _ _ _ _ _ h => AlgorandHTLCBridge.approval_program_rejected _ _ _ _ _ _ _ h,
   fun _ _ _ _ _ _ _ h => AlgorandHTLCBridgeFixed.create_htlc_fixed_rejected _ _ _ _ _ _ _ h,
   fun _ _ _ _ h => PartialFillBridge.step_rejected _ _ _ _ h,
   fun _ _ _ _ h => EthToAlgo.eth_to_algo_create_rejected _ _ _ _ h,
   fun _ _ _ _ _ h => EthToAlgo.claim_htlc_rejected _ _ _ _ _ h,
   fun _ _ _ _ _ _ h => EthToAlgo.eth_to_algo_refund_rejected _ _ _ _ _ _ h,
   fun _ _ _ _ h => AlgoToEth.algo_to_eth_create_rejected _ _ _ _ h,
   fun _ _ _ _ h => AlgoToEth.reveal_secret_rejected _ _ _ _ h⟩

/-- Witness for C2 at a concrete input: a zero-amount fill is rejected carrying
the unchanged state and no transfer. -/
theorem C2_failed_operation_mutates_nothing_witness :
    (⟨0, 0, 7, 0, 0, [], 0, [], [], 0⟩ : PartialFillBridge.GlobalState)
      = ⟨0, 0, 7, 0, 0, [], 0, [], [], 0⟩
    ∧ ([] : List Transfer) = [] :=
  C2_failed_operation_mutates_nothing.2.2.1
    ⟨0, 0, 7, 0, 0, [], 0, [], [], 0⟩ (.partial_fill 0 [])
    ⟨0, 0, 7, 0, 0, [], 0, [], [], 0⟩ [] (by decide)

/-- C4: for a sequence of fills each admissible at its call time (positive and
at most the remaining amount), every fill is accepted in call order and the
final `total_filled` is the sum of the fills (with `remaining_amount` reduced
by the same sum); a successful fill finalizes (`executed = 1`) exactly when it
brings the remaining amount to 0, within that same call; and a fill request of
0 or exceeding the current remaining amount is rejected with the whole state
unchanged rather than clamped. -/
theorem C4_partial_fill_accounting :
    (∀ (sec : Bytes) (fs : List Nat) (s : PartialFillBridge.GlobalState),
        s.executed = 0 → s.refunded = 0 → s.total_filled = 0 → s.hashlock = sha256 sec →
        PartialFillBridge.admissible s.remaining_amount fs = true →
        PartialFillBridge.allOk s (PartialFillBridge.fillsOps sec fs) = true
        ∧ (PartialFillBridge.run s (PartialFillBridge.fillsOps sec fs)).total_filled = fs.sum
        ∧ (PartialFillBridge.run s (PartialFillBridge.fillsOps sec fs)).remaining_amount
            = s.remaining_amount - fs.sum)
    ∧ (∀ (s : PartialFillBridge.GlobalState) (fill : Nat) (sec : Bytes)
          (s2 : PartialFillBridge.GlobalState) (ts : List Transfer),
        PartialFillBridge.handle_partial_fill s fill sec = .ok s2 ts →
        (s2.executed = 1 ↔ s2.remaining_amount = 0))
    ∧ (∀ (s : PartialFillBridge.GlobalState) (fill : Nat) (sec : Bytes),
        fill = 0 ∨ s.remaining_amount < fill →
        PartialFillBridge.handle_partial_fill s fill sec = .rejected s []) := by
  refine ⟨?_, ?_, ?_⟩
  · intro sec fs s h1 h2 h3 h4 h5
    obtain ⟨ha, hb, hc⟩ := PartialFillBridge.fills_accumulate sec fs s h1 h2 h4 h5
    rw [h3] at hb
    simpa [ha, hc] using hb
  · intro s fill sec s2 ts h
    obtain ⟨h1, _, hex, _, _, _, _⟩ := PartialFillBridge.handle_partial_fill_ok s fill sec s2 ts h
    subst h1
    by_cases hz : s.remaining_amount - fill = 0 <;> simp [hz, hex]
  · exact fun s fill sec hbad => PartialFillBridge.handle_partial_fill_invalid s fill sec hbad

/-- State used to witness C4: a fresh 500-unit commitment with hashlock
`Sha256("")` that two fills of 300 and 200 fully consume. -/
def c4state : PartialFillBridge.GlobalState :=
  { total_deposited := 500, total_filled := 0, remaining_amount := 500,
    executed := 0, refunded := 0, hashlock := sha256 [], timelock := 9999,
    recipient := [1], maker := [2], partial_fills_enabled := 1 }

/-- Witness for C4 at concrete inputs: fills 300 then 200 against a remaining
amount of 500 are all accepted, accumulate to 500, and exhaust the remaining
amount; an overdrawing third fill of 1 would then be rejected unchanged. -/
theorem C4_partial_fill_accounting_witness :
    (PartialFillBridge.allOk c4state (PartialFillBridge.fillsOps [] [300, 200]) = true
      ∧ (PartialFillBridge.run c4state (PartialFillBridge.fillsOps [] [300, 200])).total_filled
          = [300, 200].sum
      ∧ (PartialFillBridge.run c4state (PartialFillBridge.fillsOps [] [300, 200])).remaining_amount
          = c4state.remaining_amount - [300, 200].sum)
    ∧ PartialFillBridge.handle_partial_fill
        ⟨500, 500, 0, 1, 0, sha256 [], 9999, [1], [2], 1⟩ 1 [] =
      .rejected ⟨500, 500, 0, 1, 0, sha256 [], 9999, [1], [2], 1⟩ [] :=
  ⟨C4_partial_fill_accounting.1 [] [300, 200] c4state rfl rfl rfl rfl (by decide),
   C4_partial_fill_accounting.2.2 ⟨500, 500, 0, 1, 0, sha256 [], 9999, [1], [2], 1⟩ 1 []
     (Or.inr (by decide))⟩

/-- C5 (amended): `handle_deposit` adds the amount to `total_deposited` but
then stores that same new total into `remaining_amount` (rather than adding the
amount to the previous remaining amount), and it performs no terminal-status
check — it succeeds on every state, including executed or refunded ones, with
no other field touched and no transfer issued. -/
theorem C5_deposit_resets_remaining :
    ∀ (s : PartialFillBridge.GlobalState) (amount : Nat),
      PartialFillBridge.handle_deposit s amount =
        .ok { s with total_deposited := s.total_deposited + amount,
                     remaining_amount := s.total_deposited + amount } [] :=
  fun _ _ => rfl

/-- State used to refute C5 as stated: reachable via deposit 100, create with
hashlock `Sha256("")`, then a fill of 60 (so 40 remains of 100 deposited). -/
def c5state : PartialFillBridge.GlobalState :=
  PartialFillBridge.run PartialFillBridge.handle_creation
    [.deposit 100, .create_htlc (sha256 []) 9999 [1] [2] 1, .partial_fill 60 []]

/-- Counterexample to C5 as stated: on the reachable state with 100 deposited,
60 filled and 40 remaining, a deposit of 10 sets `remaining_amount` to 110
(the new `total_deposited`), not to 40 + 10; and a deposit on an executed
(terminal) record still succeeds instead of failing. -/
theorem C5_deposit_counterexample :
    (PartialFillBridge.handle_deposit c5state 10).state.remaining_amount
        ≠ c5state.remaining_amount + 10
    ∧ (PartialFillBridge.handle_deposit { c5state with executed := 1 } 10).isOk = true := by
  constructor
  · decide
  · rfl

/-- C10 (implicit): `handle_partial_fill` succeeds exactly when the record is
non-terminal, the secret hashes to the hashlock, and the fill is positive and
at most the remaining amount — so its outcome never depends on
`partial_fills_enabled` (it succeeds with the flag 0) or on `timelock`
(no expiry check is performed); likewise `handle_public_claim` succeeds exactly
when the record is non-terminal and the secret matches, independent of the
timelock; and both handlers commute with arbitrary rewrites of the
`partial_fills_enabled` and `timelock` fields. -/
theorem C10_fill_and_claim_ignore_timelock_and_flag :
    (∀ (s : PartialFillBridge.GlobalState) (fill : Nat) (sec : Bytes),
        (PartialFillBridge.handle_partial_fill s fill sec).isOk = true ↔
          (s.executed = 0 ∧ s.refunded = 0 ∧ s.hashlock = sha256 sec ∧
           0 < fill ∧ fill ≤ s.remaining_amount))
    ∧ (∀ (s : PartialFillBridge.GlobalState) (sec : Bytes),
        (PartialFillBridge.handle_public_claim s sec).isOk = true ↔
          (s.executed = 0 ∧ s.refunded = 0 ∧ s.hashlock = sha256 sec))
    ∧ (∀ (s : PartialFillBridge.GlobalState) (fill : Nat) (sec : Bytes) (b t : Nat),
        PartialFillBridge.handle_partial_fill
            { s with partial_fills_enabled := b, timelock := t } fill sec =
          match PartialFillBridge.handle_partial_fill s fill sec with
          | .ok s2 ts => .ok { s2 with partial_fills_enabled := b, timelock := t } ts
          | .rejected s2 ts => .rejected { s2 with partial_fills_enabled := b, timelock := t } ts)
    ∧ (∀ (s : PartialFillBridge.GlobalState) (sec : Bytes) (b t : Nat),
        PartialFillBridge.handle_public_claim
            { s with partial_fills_enabled := b, timelock := t } sec =
          match PartialFillBridge.handle_public_claim s sec with
          | .ok s2 ts => .ok { s2 with partial_fills_enabled := b, timelock := t } ts
          | .rejected s2 ts => .rejected { s2 with partial_fills_enabled := b, timelock := t } ts) := by
  refine ⟨?_, ?_, ?_, ?_⟩
  · intro s fill sec
    unfold PartialFillBridge.handle_partial_fill
    split_ifs <;> simp_all [OpResult.isOk]
  · intro s sec
    unfold PartialFillBridge.handle_public_claim
    split_ifs <;> simp_all [OpResult.isOk]
  · intro s fill sec b t
    unfold PartialFillBridge.handle_partial_fill
    split_ifs <;> simp_all
  · intro s sec b t
    unfold PartialFillBridge.handle_public_claim
    split_ifs <;> simp_all

/-- Witness for C10 at a concrete input: with `partial_fills_enabled = 0` and
`timelock = 0` (already expired at any clock reading), a fill of 5 against 10
remaining and the matching secret succeeds, and so does a public claim. -/
theorem C10_fill_and_claim_ignore_timelock_and_flag_witness :
    (PartialFillBridge.handle_partial_fill
        ⟨0, 0, 10, 0, 0, sha256 [], 0, [], [], 0⟩ 5 []).isOk = true
    ∧ (PartialFillBridge.handle_public_claim
        ⟨0, 0, 10, 0, 0, sha256 [], 0, [], [], 0⟩ []).isOk = true :=
  ⟨(C10_fill_and_claim_ignore_timelock_and_flag.1
      ⟨0, 0, 10, 0, 0, sha256 [], 0, [], [], 0⟩ 5 []).mpr
      ⟨rfl, rfl, rfl, by decide, by decide⟩,
   (C10_fill_and_claim_ignore_timelock_and_flag.2.1
      ⟨0, 0, 10, 0, 0, sha256 [], 0, [], [], 0⟩ []).mpr
      ⟨rfl, rfl, rfl⟩⟩

/-- C6 (amended): in the full-amount bridge, a valid create stores the record
with `withdrawn = 0` and `refunded = 0` (status Pending) and a positive stored
amount, and a zero amount is rejected unchanged; in the partial-fill engine,
`handle_htlc_creation` stores only hashlock / timelock / recipient / maker /
partial_fills_enabled and leaves `total_filled`, `remaining_amount`,
`total_deposited` and both flags untouched — the counters are established by
deposits, not by create. -/
theorem C6_create_initialization :
    (∀ (minT maxT now : Nat) (args : List Bytes) (s s2 : AlgorandHTLCBridge.LocalState)
        (ts : List Transfer),
        AlgorandHTLCBridge.create_htlc minT maxT now args s = .ok s2 ts →
        s2.withdrawn = 0 ∧ s2.refunded = 0 ∧ s2.amount = btoi (args.getD 3 [])
        ∧ 0 < s2.amount)
    ∧ (∀ (minT maxT now : Nat) (args : List Bytes) (s : AlgorandHTLCBridge.LocalState),
        btoi (args.getD 3 []) = 0 →
        AlgorandHTLCBridge.create_htlc minT maxT now args s = .rejected s [])
    ∧ (∀ (s : PartialFillBridge.GlobalState) (hl : Bytes) (tl : Nat) (rcp mk : Bytes)
          (pf : Nat),
        PartialFillBridge.handle_htlc_creation s hl tl rcp mk pf =
          .ok { s with hashlock := hl, timelock := tl, recipient := rcp,
                       maker := mk, partial_fills_enabled := pf } []) := by
  refine ⟨?_, ?_, ?_⟩
  · intro minT maxT now args s s2 ts h
    obtain ⟨h1, _, _, _, _, h6, _⟩ := AlgorandHTLCBridge.create_htlc_ok _ _ _ _ _ _ _ h
    subst h1
    exact ⟨rfl, rfl, rfl, h6⟩
  · intro minT maxT now args s hz
    unfold AlgorandHTLCBridge.create_htlc
    split_ifs <;> first | rfl | (exfalso; omega)
  · exact fun s hl tl rcp mk pf => rfl

/-- Witness for C6 at concrete inputs: a 100-unit create at clock 1000 with
timelock 5000 yields a Pending record with the committed amount stored, and a
create whose amount argument decodes to 0 is rejected unchanged. -/
theorem C6_create_initialization_witness :
    ((⟨some [99], [1], [2], 100, [7], 5000, [3], 0, 0⟩ : AlgorandHTLCBridge.LocalState).withdrawn = 0
      ∧ (⟨some [99], [1], [2], 100, [7], 5000, [3], 0, 0⟩ : AlgorandHTLCBridge.LocalState).refunded = 0
      ∧ (⟨some [99], [1], [2], 100, [7], 5000, [3], 0, 0⟩ : AlgorandHTLCBridge.LocalState).amount
          = btoi ([[99], [1], [2], [100], [7], [19, 136], [3]].getD 3 [])
      ∧ 0 < (⟨some [99], [1], [2], 100, [7], 5000, [3], 0, 0⟩ : AlgorandHTLCBridge.LocalState).amount)
    ∧ AlgorandHTLCBridge.create_htlc 3600 86400 1000
        [[99], [1], [2], [], [7], [19, 136], [3]] AlgorandHTLCBridge.initLocal =
      .rejected AlgorandHTLCBridge.initLocal [] :=
  ⟨C6_create_initialization.1 3600 86400 1000 [[99], [1], [2], [100], [7], [19, 136], [3]]
      AlgorandHTLCBridge.initLocal ⟨some [99], [1], [2], 100, [7], 5000, [3], 0, 0⟩
      [⟨.appAddress, 100⟩] (by decide),
   C6_create_initialization.2.1 3600 86400 1000 [[99], [1], [2], [], [7], [19, 136], [3]]
      AlgorandHTLCBridge.initLocal (by decide)⟩

/-- Counterexample to C6 as stated: on the reachable partial-fill state with
40 already filled (deposit 100, create, fill 40), a further valid create_htlc
succeeds but the post-state has `total_filled = 40 ≠ 0` and
`remaining_amount = 60`, not the committed amount — create initializes no
counter. -/
theorem C6_create_counterexample :
    (PartialFillBridge.step
        (PartialFillBridge.run PartialFillBridge.handle_creation
          [.deposit 100, .create_htlc (sha256 []) 9999 [1] [2] 1, .partial_fill 40 []])
        (.create_htlc (sha256 []) 9999 [1] [2] 1)).isOk = true
    ∧ (PartialFillBridge.step
        (PartialFillBridge.run PartialFillBridge.handle_creation
          [.deposit 100, .create_htlc (sha256 []) 9999 [1] [2] 1, .partial_fill 40 []])
        (.create_htlc (sha256 []) 9999 [1] [2] 1)).state.total_filled ≠ 0
    ∧ (PartialFillBridge.step
        (PartialFillBridge.run PartialFillBridge.handle_creation
          [.deposit 100, .create_htlc (sha256 []) 9999 [1] [2] 1, .partial_fill 40 []])
        (.create_htlc (sha256 []) 9999 [1] [2] 1)).state.remaining_amount = 60 := by
  refine ⟨by rfl, by decide, by decide⟩

/-- C7 (amended): the full bridge and its fixed variant reject any create whose
timelock lies outside `[now + minTimelock, now + maxTimelock]`, with the state
unchanged; the minimal ETH→ALGO and ALGO→ETH variants perform no timelock
bounds check at all — their create succeeds exactly when the argument count is
6, the amount is positive and no record exists, regardless of the timelock and
of the clock. -/
theorem C7_timelock_bounds :
    (∀ (minT maxT now : Nat) (args : List Bytes) (s : AlgorandHTLCBridge.LocalState),
        (btoi (args.getD 5 []) < now + minT ∨ now + maxT < btoi (args.getD 5 [])) →
        AlgorandHTLCBridge.create_htlc minT maxT now args s = .rejected s [])
    ∧ (∀ (minT maxT now : Nat) (args : List Bytes) (s : AlgorandHTLCBridgeFixed.LocalState),
        (btoi (args.getD 6 []) < now + minT ∨ now + maxT < btoi (args.getD 6 [])) →
        AlgorandHTLCBridgeFixed.create_htlc minT maxT now args s = .rejected s [])
    ∧ (∀ (args : List Bytes) (s : EthToAlgo.LocalState),
        (EthToAlgo.create_htlc args s).isOk = true ↔
          (args.length = 6 ∧ 0 < btoi (args.getD 3 []) ∧ s.htlc_id = none))
    ∧ (∀ (args : List Bytes) (s : AlgoToEth.LocalState),
        (AlgoToEth.create_htlc args s).isOk = true ↔
          (args.length = 6 ∧ 0 < btoi (args.getD 3 []) ∧ s.htlc_id = none)) := by
  refine ⟨?_, ?_, ?_, ?_⟩
  · intro minT maxT now args s hbad
    unfold AlgorandHTLCBridge.create_htlc
    split_ifs <;> first | rfl | (exfalso; omega)
  · intro minT maxT now args s hbad
    unfold AlgorandHTLCBridgeFixed.create_htlc
    split_ifs <;> first | rfl | (exfalso; omega)
  · intro args s
    unfold EthToAlgo.create_htlc
    split_ifs <;> simp_all [OpResult.isOk]
  · intro args s
    unfold AlgoToEth.create_htlc
    split_ifs <;> simp_all [OpResult.isOk]

/-- Witness for C7 at concrete inputs: at clock 1000 with the deployed bounds
3600/86400, a create whose timelock argument decodes to 0 is rejected by the
full bridge. -/
theorem C7_timelock_bounds_witness :
    AlgorandHTLCBridge.create_htlc 3600 86400 1000
        [[99], [1], [2], [100], [7], [], [3]] AlgorandHTLCBridge.initLocal =
      .rejected AlgorandHTLCBridge.initLocal [] :=
  C7_timelock_bounds.1 3600 86400 1000 [[99], [1], [2], [100], [7], [], [3]]
    AlgorandHTLCBridge.initLocal (Or.inl (by decide))

/-- Counterexample to C7 as stated: the ALGO→ETH create accepts a timelock of 0
(which violates `now + minTimelockDelay ≤ timelock` for every clock reading and
the deployed minimum delay 3600), storing the record and escrowing the amount —
no variant-wide bound enforcement exists. -/
theorem C7_timelock_counterexample :
    (AlgoToEth.create_htlc [[], [1], [2], [5], [7], []] AlgoToEth.initLocal).isOk = true
    ∧ (AlgoToEth.create_htlc [[], [1], [2], [5], [7], []] AlgoToEth.initLocal).state.timelock = 0
    ∧ ¬ 0 + 3600 ≤ 0 := by
  refine ⟨by rfl, by rfl, by decide⟩

/-- C8 (amended): the hash-commitment check used by every handler is the bare
equation `Sha256(secret) == hashlock` with no emptiness guard; the empty secret
is refused against every hashlock other than the particular 32-byte digest
`Sha256("")`, but against that one (non-empty) hashlock it verifies — success
of `handle_public_claim` and `reveal_secret` always implies the revealed secret
verifies against the stored hashlock. -/
theorem C8_empty_secret_verification :
    (∀ (hl : Bytes), hl ≠ sha256 [] → verify [] hl = false)
    ∧ (∀ (s : PartialFillBridge.GlobalState) (sec : Bytes),
        (PartialFillBridge.handle_public_claim s sec).isOk = true →
        verify sec s.hashlock = true)
    ∧ (∀ (args : List Bytes) (s s2 : AlgoToEth.LocalState) (ts : List Transfer),
        AlgoToEth.reveal_secret args s = .ok s2 ts →
        verify (args.getD 2 []) s.hashlock = true) := by
  refine ⟨?_, ?_, ?_⟩
  · intro hl hne
    simp only [verify, beq_eq_false_iff_ne, ne_eq]
    exact fun hc => hne hc.symm
  · intro s sec h
    unfold PartialFillBridge.handle_public_claim at h
    split_ifs at h <;> simp_all [OpResult.isOk, verify]
  · intro args s s2 ts h
    obtain ⟨_, _, _, _, _, h6⟩ := AlgoToEth.reveal_secret_ok _ _ _ _ h
    simpa [verify] using h6

/-- Witness for C8 at a concrete input: the empty secret does not verify
against the hashlock `[42]`. -/
theorem C8_empty_secret_verification_witness :
    verify [] [42] = false :=
  C8_empty_secret_verification.1 [42] (by decide)

/-- Counterexample to C8 as stated: `Sha256("")` is a non-empty (32-byte)
hashlock that the empty secret does verify against — there is no guard that
prevents an empty secret from being treated as a valid preimage. -/
theorem C8_empty_secret_counterexample :
    verify [] (sha256 []) = true ∧ sha256 [] ≠ [] := by
  refine ⟨by decide, by decide⟩

namespace AlgoToEth

/-- Invariant claimed for the reveal leg: a recorded (non-empty) secret always
hashes to the stored hashlock. -/
def secretConsistent (s : LocalState) : Prop :=
  s.secret ≠ [] → sha256 s.secret = s.hashlock

end AlgoToEth

/-- C9 (amended): `reveal_secret` is rejected unchanged whenever the stored
secret field is non-empty or the revealed value does not hash to the hashlock;
on success it stores the revealed secret, changes no flag and issues no
transfer, and the revealed value hashes to the hashlock; consequently a
recorded non-empty secret always satisfies `Sha256(secret) = hashlock` and is
never overwritten.  However the contract uses the empty byte string as the
"unset" sentinel, so an empty secret (valid only against the hashlock
`Sha256("")`) does not register as recorded and can be revealed again. -/
theorem C9_reveal_secret_behavior :
    (∀ (args : List Bytes) (s : AlgoToEth.LocalState),
        s.secret ≠ [] → AlgoToEth.reveal_secret args s = .rejected s [])
    ∧ (∀ (args : List Bytes) (s : AlgoToEth.LocalState),
        sha256 (args.getD 2 []) ≠ s.hashlock →
        AlgoToEth.reveal_secret args s = .rejected s [])
    ∧ (∀ (args : List Bytes) (s s2 : AlgoToEth.LocalState) (ts : List Transfer),
        AlgoToEth.reveal_secret args s = .ok s2 ts →
        s2 = { s with secret := args.getD 2 [] } ∧ ts = []
        ∧ sha256 (args.getD 2 []) = s.hashlock ∧ s.secret = [])
    ∧ (∀ (args : List Bytes) (s : AlgoToEth.LocalState),
        AlgoToEth.secretConsistent s →
        AlgoToEth.secretConsistent (AlgoToEth.reveal_secret args s).state
        ∧ AlgoToEth.secretConsistent (AlgoToEth.create_htlc args s).state) := by
  refine ⟨?_, ?_, ?_, ?_⟩
  · intro args s hsec
    unfold AlgoToEth.reveal_secret
    split_ifs <;> simp_all
  · intro args s hh
    unfold AlgoToEth.reveal_secret
    split_ifs <;> simp_all
  · intro args s s2 ts h
    obtain ⟨h1, h2, _, _, h5, h6⟩ := AlgoToEth.reveal_secret_ok _ _ _ _ h
    exact ⟨h1, h2, h6, h5⟩
  · intro args s hcons
    refine ⟨?_, ?_⟩
    · rcases hr : AlgoToEth.reveal_secret args s with ⟨s2, ts⟩ | ⟨s2, ts⟩
      · obtain ⟨h1, _, _, _, _, h6⟩ := AlgoToEth.reveal_secret_ok _ _ _ _ hr
        subst h1
        simp only [AlgoToEth.secretConsistent, OpResult.state]
        intro _
        simpa using h6
      · obtain ⟨h1, _⟩ := AlgoToEth.reveal_secret_rejected _ _ _ _ hr
        subst h1
        exact hcons
    · rcases hr : AlgoToEth.create_htlc args s with ⟨s2, ts⟩ | ⟨s2, ts⟩
      · obtain ⟨h1, _⟩ := AlgoToEth.algo_to_eth_create_ok _ _ _ _ hr
        subst h1
        simp only [AlgoToEth.secretConsistent, OpResult.state]
        intro hne
        simp at hne
      · obtain ⟨h1, _⟩ := AlgoToEth.algo_to_eth_create_rejected _ _ _ _ hr
        subst h1
        exact hcons

/-- Witness for C9 at a concrete input: on a record whose secret field already
holds the non-empty value `[7]`, a reveal is rejected unchanged. -/
theorem C9_reveal_secret_behavior_witness :
    AlgoToEth.reveal_secret [[], [120], [7]]
        ⟨some [120], [9], 5, sha256 [], 15, [7], 0, 0⟩ =
      .rejected ⟨some [120], [9], 5, sha256 [], 15, [7], 0, 0⟩ [] :=
  C9_reveal_secret_behavior.1 [[], [120], [7]]
    ⟨some [120], [9], 5, sha256 [], 15, [7], 0, 0⟩ (by decide)

/-- Counterexample to C9 as stated: create a record with hashlock `Sha256("")`,
then reveal the empty secret — the reveal succeeds and records the secret, yet
an identical second reveal also succeeds instead of failing AlreadySet: the
secret field is written twice. -/
theorem C9_reveal_secret_counterexample :
    (AlgoToEth.create_htlc [[], [120], [9], [5], sha256 [], [15]] AlgoToEth.initLocal).isOk = true
    ∧ (AlgoToEth.reveal_secret [[], [120], []]
        (AlgoToEth.create_htlc [[], [120], [9], [5], sha256 [], [15]]
          AlgoToEth.initLocal).state).isOk = true
    ∧ (AlgoToEth.reveal_secret [[], [120], []]
        (AlgoToEth.reveal_secret [[], [120], []]
          (AlgoToEth.create_htlc [[], [120], [9], [5], sha256 [], [15]]
            AlgoToEth.initLocal).state).state).isOk = true := by
  refine ⟨by rfl, by decide, by decide⟩

/-- C3 (amended): in the ETH→ALGO variant, `claim_htlc` with the matching id
and a secret hashing to the hashlock, called strictly before the timelock on a
non-terminal record, succeeds — it sets `withdrawn := 1` (no secret field is
stored by claim) and issues exactly one transfer of the stored amount to the
stored recipient; repeating it afterwards is rejected with no second transfer;
at or after the timelock it is rejected; and a wrong secret is rejected with
the state unchanged.  In the legacy bridge, `withdraw_htlc` additionally
requires the stored `HtlcId` to equal `application_args[0]` — the slot that the
dispatcher forces to the opcode "withdraw" — while every successful transaction
on a fresh record stores the id "create", so that variant's withdraw never
succeeds on a record its own create produced (the repository's
`AlgorandHTLCBridgeFixed.py` corrects exactly this indexing). -/
theorem C3_claim_behavior :
    (∀ (now : Nat) (x0 id sec : Bytes) (s : EthToAlgo.LocalState),
        s.htlc_id = some id → s.withdrawn = 0 → s.refunded = 0 →
        now < s.timelock → sha256 sec = s.hashlock →
        EthToAlgo.claim_htlc now [x0, id, sec] s =
          .ok { s with withdrawn := 1 } [⟨.acct s.recipient, s.amount⟩])
    ∧ (∀ (now : Nat) (args : List Bytes) (s : EthToAlgo.LocalState),
        s.withdrawn ≠ 0 → EthToAlgo.claim_htlc now args s = .rejected s [])
    ∧ (∀ (now : Nat) (args : List Bytes) (s : EthToAlgo.LocalState),
        s.timelock ≤ now → EthToAlgo.claim_htlc now args s = .rejected s [])
    ∧ (∀ (now : Nat) (args : List Bytes) (s : EthToAlgo.LocalState),
        sha256 (args.getD 2 []) ≠ s.hashlock →
        EthToAlgo.claim_htlc now args s = .rejected s [])
    ∧ (∀ (minT maxT now : Nat) (args : List Bytes)
          (l l2 : AlgorandHTLCBridge.LocalState) (ts : List Transfer),
        AlgorandHTLCBridge.approval_program minT maxT now args l = .ok l2 ts →
        l.htlc_id = none → l2.htlc_id = some AlgorandHTLCBridge.opCreate)
    ∧ (∀ (now : Nat) (args : List Bytes) (l : AlgorandHTLCBridge.LocalState),
        l.htlc_id ≠ some (args.getD 0 []) →
        AlgorandHTLCBridge.withdraw_htlc now args l = .rejected l [])
    ∧ (∀ (minT maxT now : Nat) (rest : List Bytes) (l : AlgorandHTLCBridge.LocalState),
        AlgorandHTLCBridge.approval_program minT maxT now
            (AlgorandHTLCBridge.opWithdraw :: rest) l =
          AlgorandHTLCBridge.withdraw_htlc now (AlgorandHTLCBridge.opWithdraw :: rest) l) := by
  refine ⟨?_, ?_, ?_, ?_, ?_, ?_, ?_⟩
  · exact fun now x0 id sec s h1 h2 h3 h4 h5 =>
      EthToAlgo.claim_htlc_success now x0 id sec s h1 h2 h3 h4 h5
  · intro now args s hw
    unfold EthToAlgo.claim_htlc
    split_ifs <;> simp_all
  · intro now args s hexp
    unfold EthToAlgo.claim_htlc
    split_ifs <;> first | rfl | omega
  · intro now args s hh
    unfold EthToAlgo.claim_htlc
    split_ifs <;> simp_all
  · intro minT maxT now args l l2 ts h hl
    cases args with
    | nil => simp only [AlgorandHTLCBridge.approval_program] at h; exact absurd h (by simp)
    | cons a rest =>
      simp only [AlgorandHTLCBridge.approval_program] at h
      split_ifs at h with hc hw hrf
      · obtain ⟨h1, _⟩ := AlgorandHTLCBridge.create_htlc_ok _ _ _ _ _ _ _ h
        subst h1
        simp [hc]
      · obtain ⟨_, _, _, h4, _⟩ := AlgorandHTLCBridge.withdraw_htlc_ok _ _ _ _ _ h
        rw [hl] at h4
        exact absurd h4 (by simp)
      · obtain ⟨_, _, _, h4, _⟩ := AlgorandHTLCBridge.refund_htlc_ok _ _ _ _ _ h
        rw [hl] at h4
        exact absurd h4 (by simp)
  · intro now args l hne
    unfold AlgorandHTLCBridge.withdraw_htlc
    split_ifs <;> simp_all
  · intro minT maxT now rest l
    simp only [AlgorandHTLCBridge.approval_program]
    rw [if_neg (by decide)]
    simp

/-- Witness for C3 at concrete inputs: a claim with the matching id and the
secret hashing to the stored hashlock, before the timelock, succeeds with one
payout of the full amount; and the legacy withdraw is rejected on a record
whose stored id ("create") differs from its args[0] slot ("withdraw"). -/
theorem C3_claim_behavior_witness :
    EthToAlgo.claim_htlc 10 [[], [55], []]
        ⟨some [55], [9], 77, sha256 [], 5000, 0, 0⟩ =
      .ok ⟨some [55], [9], 77, sha256 [], 5000, 1, 0⟩ [⟨.acct [9], 77⟩]
    ∧ AlgorandHTLCBridge.withdraw_htlc 10
        [AlgorandHTLCBridge.opWithdraw, []]
        ⟨some AlgorandHTLCBridge.opCreate, [1], [2], 100, sha256 [], 5000, [3], 0, 0⟩ =
      .rejected ⟨some AlgorandHTLCBridge.opCreate, [1], [2], 100, sha256 [], 5000, [3], 0, 0⟩ [] :=
  ⟨C3_claim_behavior.1 10 [] [55] [] ⟨some [55], [9], 77, sha256 [], 5000, 0, 0⟩
      rfl rfl rfl (by decide) rfl,
   C3_claim_behavior.2.2.2.2.2.1 10 [AlgorandHTLCBridge.opWithdraw, []]
      ⟨some AlgorandHTLCBridge.opCreate, [1], [2], 100, sha256 [], 5000, [3], 0, 0⟩
      (by decide)⟩

/-- Record obtained from the legacy bridge's own create (clock 1000, bounds
3600/86400, amount 100, hashlock `Sha256("")`, timelock 5000): its stored
`HtlcId` is the dispatch opcode "create". -/
def c3state : AlgorandHTLCBridge.LocalState :=
  (AlgorandHTLCBridge.approval_program 3600 86400 1000
    [AlgorandHTLCBridge.opCreate, [1], [2], [100], sha256 [], [19, 136], [3]]
    AlgorandHTLCBridge.initLocal).state

/-- Counterexample to C3 as stated: on the record just created by the legacy
bridge — non-terminal, clock 2000 strictly before the timelock 5000, and the
empty secret hashing to the stored hashlock — the withdraw transaction is
nevertheless rejected with the state unchanged (stored id "create" ≠ args[0]
slot "withdraw"), so the claimed success is impossible for every record this
contract's create produces. -/
theorem C3_claim_counterexample :
    (AlgorandHTLCBridge.approval_program 3600 86400 1000
        [AlgorandHTLCBridge.opCreate, [1], [2], [100], sha256 [], [19, 136], [3]]
        AlgorandHTLCBridge.initLocal).isOk = true
    ∧ c3state.withdrawn = 0 ∧ c3state.refunded = 0
    ∧ 2000 < c3state.timelock ∧ sha256 [] = c3state.hashlock
    ∧ AlgorandHTLCBridge.approval_program 3600 86400 2000
        [AlgorandHTLCBridge.opWithdraw, []] c3state = .rejected c3state [] := by
  refine ⟨by rfl, by decide, by decide, by decide, by decide, by decide⟩
